import Mathlib

/-!
Verification development for the `errx` structured-error library.

The Go source is shallowly embedded:
* `Code` models the `type Code uint8` enumeration (only the numeric value and
  equality matter to the claims under study).
* `GoVal` models the dynamic `any` values stored in detail/metadata maps.
* `Mp` models a Go `map[string]any` as an association list with unique keys,
  specified purely through `lookupMp` (Go maps are unordered; only lookup
  semantics are observable in the claims).
* `GoErr` models a non-nil Go `error` interface value: a plain error
  (`errors.New`), a `fmt.Errorf("...%w...")` wrapper, or an interface value
  holding a `*errx.Error` pointer (which may itself be the nil pointer —
  Go's "typed nil", a non-nil interface).  A possibly-nil `error` is
  `Option GoErr`; a possibly-nil `*errx.Error` is `Option Error`.
* Context propagation (`WithMetaContext` / `getCtxMeta`) is modelled with an
  explicit store of allocated maps, so that the copy-on-derive behaviour
  (child allocates a fresh map, parent's map is untouched) is an actual
  theorem about the embedding rather than a triviality of purity.
* `runtime.Callers` is modelled by an ambient call stack `List Nat` of frame
  identifiers threaded into the constructors; `captureStackTrace skip stack`
  drops `skip` frames and keeps at most `maxDepth` frames, exactly the
  behaviour of filling a 32-entry buffer.
* Operations that can hit a nil-pointer dereference in Go return an
  `Option` result where `none` stands for the runtime panic.
-/

namespace Errx

/-- Go `type Code uint8`: a numeric error-classification code. -/
structure Code where
  val : Nat
deriving DecidableEq, Repr

def CodeUnknown : Code := ⟨0⟩
def CodeCanceled : Code := ⟨1⟩
def CodeInvalidArgument : Code := ⟨2⟩
def CodeDeadlineExceeded : Code := ⟨3⟩
def CodeNotFound : Code := ⟨4⟩
def CodeAlreadyExists : Code := ⟨5⟩
def CodePermissionDenied : Code := ⟨6⟩
def CodeResourceExhausted : Code := ⟨7⟩
def CodeFailedPrecondition : Code := ⟨8⟩
def CodeAborted : Code := ⟨9⟩
def CodeOutOfRange : Code := ⟨10⟩
def CodeUnimplemented : Code := ⟨11⟩
def CodeInternal : Code := ⟨12⟩
def CodeUnavailable : Code := ⟨13⟩
def CodeDataLoss : Code := ⟨14⟩
def CodeUnauthenticated : Code := ⟨15⟩

/-- A dynamic Go `any` value as used in detail/metadata maps. -/
inductive GoVal where
  | vStr (s : String)
  | vInt (n : Int)
deriving DecidableEq, Repr

/-- A Go `map[string]any`, as an association list. -/
abbrev Mp := List (String × GoVal)

/-- Map lookup (`m[k]`, first matching entry). -/
def lookupMp (m : Mp) (k : String) : Option GoVal :=
  match m with
  | [] => none
  | (k', v) :: rest => if k' = k then some v else lookupMp rest k

/-- Map assignment `m[k] = v`: replace the entry if the key is present,
otherwise add it. -/
def upsert (m : Mp) (k : String) (v : GoVal) : Mp :=
  match m with
  | [] => [(k, v)]
  | (k', v') :: rest => if k' = k then (k, v) :: rest else (k', v') :: upsert rest k v

/-- The keys of the map are pairwise distinct (always true of a Go map). -/
def nodupKeys (m : Mp) : Prop := (m.map Prod.fst).Nodup

instance (m : Mp) : Decidable (nodupKeys m) := by
  unfold nodupKeys; infer_instance

mutual
/-- A non-nil Go `error` interface value, as seen by the `errx` package:
a plain error, a single-cause `fmt.Errorf` wrapper, or an interface value
holding a `*errx.Error` pointer (`ptrErr none` is Go's typed nil). -/
inductive GoErr where
  | plain (msg : String)
  | wrapper (msg : String) (cause : GoErr)
  | ptrErr (p : Option Error)

/-- The `errx.Error` struct (field order as in the source). -/
inductive Error where
  | mk (code : Code) (message : String) (debugMessage : String)
      (cause : Option GoErr) (source : String) (tags : List String)
      (details : Option Mp) (metadata : Option Mp)
      (stackTrace : List Nat) (retryable : Bool)
end

def Error.code : Error → Code
  | .mk c _ _ _ _ _ _ _ _ _ => c

def Error.message : Error → String
  | .mk _ m _ _ _ _ _ _ _ _ => m

def Error.debugMessage : Error → String
  | .mk _ _ d _ _ _ _ _ _ _ => d

def Error.cause : Error → Option GoErr
  | .mk _ _ _ c _ _ _ _ _ _ => c

def Error.source : Error → String
  | .mk _ _ _ _ s _ _ _ _ _ => s

def Error.tags : Error → List String
  | .mk _ _ _ _ _ t _ _ _ _ => t

def Error.details : Error → Option Mp
  | .mk _ _ _ _ _ _ d _ _ _ => d

def Error.metadata : Error → Option Mp
  | .mk _ _ _ _ _ _ _ m _ _ => m

def Error.stackTrace : Error → List Nat
  | .mk _ _ _ _ _ _ _ _ st _ => st

def Error.retryable : Error → Bool
  | .mk _ _ _ _ _ _ _ _ _ r => r

def Error.setDetails : Error → Option Mp → Error
  | .mk c m dm ca s t _ md st r, d => .mk c m dm ca s t d md st r

def Error.setMetadata : Error → Option Mp → Error
  | .mk c m dm ca s t d _ st r, md => .mk c m dm ca s t d md st r

def Error.setDebugMessage : Error → String → Error
  | .mk c m _ ca s t d md st r, dm => .mk c m dm ca s t d md st r

def Error.setSource : Error → String → Error
  | .mk c m dm ca _ t d md st r, s => .mk c m dm ca s t d md st r

def Error.setTags : Error → List String → Error
  | .mk c m dm ca s _ d md st r, t => .mk c m dm ca s t d md st r

def Error.setRetryable : Error → Bool → Error
  | .mk c m dm ca s t d md st _, r => .mk c m dm ca s t d md st r

/-- `const maxDepth = 32` in `captureStackTrace`. -/
def maxDepth : Nat := 32

/-- `const stackSkipDepth = 4` in the source. -/
def stackSkipDepth : Nat := 4

/-- `captureStackTrace(skip)`: `runtime.Callers(skip, pcs)` with a 32-entry
buffer skips `skip` frames of the ambient call stack and records at most
`maxDepth` frame identifiers. -/
def captureStackTrace (skip : Nat) (stack : List Nat) : List Nat :=
  (stack.drop skip).take maxDepth

/-- `newError(code, message, cause)`: fresh node with empty (but non-nil)
detail/metadata maps and a stack captured here, once. -/
def newError (code : Code) (message : String) (cause : Option GoErr)
    (stack : List Nat) : Error :=
  .mk code message "" cause "" [] (some []) (some [])
    (captureStackTrace stackSkipDepth stack) false

/-- Rendering of an `any` value by `fmt` verbs (model of the standard
library's formatting of the argument). -/
def GoVal.render : GoVal → String
  | .vStr s => s
  | .vInt n => toString n

/-- Character-level model of `fmt.Sprintf`: each `%`-verb consumes one
argument and splices its rendering. -/
def sprintfAux : List Char → List GoVal → List Char
  | [], _ => []
  | ['%'], _ => ['%']
  | '%' :: _ :: rest, a :: args => (GoVal.render a).data ++ sprintfAux rest args
  | '%' :: v :: rest, [] => '%' :: v :: sprintfAux rest []
  | c :: rest, args => c :: sprintfAux rest args

def sprintf (format : String) (args : List GoVal) : String :=
  ⟨sprintfAux format.data args⟩

/-- `New(code, message)`. -/
def New (code : Code) (message : String) (stack : List Nat) : Option Error :=
  some (newError code message none stack)

/-- `Newf(code, format, args...)`. -/
def Newf (code : Code) (format : String) (args : List GoVal)
    (stack : List Nat) : Option Error :=
  some (newError code (sprintf format args) none stack)

/-- `Wrap(err, code, message)`: nil cause short-circuits to nil. -/
def Wrap (err : Option GoErr) (code : Code) (message : String)
    (stack : List Nat) : Option Error :=
  match err with
  | none => none
  | some e => some (newError code message (some e) stack)

/-- The walk performed by `errors.As(err, &pe)` with target type `*Error`:
test each node of the unwrap chain; the first node whose dynamic type is
`*Error` (even a typed-nil pointer) is the match; plain errors end the walk.
Returns the matched pointer, or `none` when no node matches. -/
def findErrx : GoErr → Option (Option Error)
  | .ptrErr p => some p
  | .plain _ => none
  | .wrapper _ c => findErrx c

/-- `As(err)`: `(value, ok)` of `AsType[*Error](err)`; nil input is
not-found. -/
def As (err : Option GoErr) : Option Error × Bool :=
  match err with
  | none => (none, false)
  | some e =>
    match findErrx e with
    | some p => (p, true)
    | none => (none, false)

/-- Package-level `Is(err)`: whether `err` is or wraps an `*Error`. -/
def Is (err : Option GoErr) : Bool :=
  (As err).2

/-- `CodeOf(err)`: code of the first `*Error` found, `CodeUnknown` when none
is found.  The Go source reads `e.code` from the found pointer, which
dereferences nil when the chain's first `*Error` is a typed nil: that panic
is modelled as `none`. -/
def CodeOf (err : Option GoErr) : Option Code :=
  match As err with
  | (some e, true) => some e.code
  | (none, true) => none
  | (_, false) => some CodeUnknown

/-- Method `(*Error).IsRetryable`: nil receiver reads as not retryable. -/
def Error.IsRetryable : Option Error → Bool
  | none => false
  | some e => e.retryable

/-- Package-level `IsRetryable(err)`: consults only the first `*Error`
found by the chain walk. -/
def IsRetryable (err : Option GoErr) : Bool :=
  match As err with
  | (e, true) => Error.IsRetryable e
  | (_, false) => false

/-- `Ensure(err, code, message)`: nil → nil; an `*Error` found in the chain
is returned unchanged; otherwise a fresh node wraps `err` with the fallback
code and message. -/
def Ensure (err : Option GoErr) (code : Code) (message : String)
    (stack : List Nat) : Option Error :=
  match err with
  | none => none
  | some e =>
    match findErrx e with
    | some p => p
    | none => some (newError code message (some e) stack)

/-- Method `(*Error).Is(target)`: nil receiver compares the target interface
against nil; otherwise a direct type assertion `target.(*Error)` is made and
the codes are compared.  A typed-nil `*Error` target passes the type
assertion with a nil pointer, and the source's `t.code` then dereferences
nil — that panic is modelled as `none`. -/
def Error.Is (e : Option Error) (target : Option GoErr) : Option Bool :=
  match e with
  | none =>
    match target with
    | none => some true
    | some _ => some false
  | some ex =>
    match target with
    | some (.ptrErr (some t)) => some (decide (ex.code = t.code))
    | some (.ptrErr none) => none
    | _ => some false

/-- `(*Error).WithDetail(key, value)`: nil receiver is a no-op returning
nil; otherwise `e.details[key] = value` and the same node is returned.
(Library constructors always initialize the map; on a nil map Go would
panic, never reached from constructor-built values.) -/
def Error.WithDetail : Option Error → String → GoVal → Option Error
  | none, _, _ => none
  | some e, k, v => some (e.setDetails (some (upsert (e.details.getD []) k v)))

/-- `(*Error).WithMeta(key, value)`: nil receiver no-op; otherwise
`e.metadata[key] = value`. -/
def Error.WithMeta : Option Error → String → GoVal → Option Error
  | none, _, _ => none
  | some e, k, v => some (e.setMetadata (some (upsert (e.metadata.getD []) k v)))

/-- `(*Error).WithDebug(message)`. -/
def Error.WithDebug : Option Error → String → Option Error
  | none, _ => none
  | some e, m => some (e.setDebugMessage m)

/-- `(*Error).WithSource(source)`. -/
def Error.WithSource : Option Error → String → Option Error
  | none, _ => none
  | some e, s => some (e.setSource s)

/-- `(*Error).WithTags(tags...)`: append, duplicates and order kept. -/
def Error.WithTags : Option Error → List String → Option Error
  | none, _ => none
  | some e, ts => some (e.setTags (e.tags ++ ts))

/-- `(*Error).WithRetryable()`: sets the flag; no way to clear it. -/
def Error.WithRetryable : Option Error → Option Error
  | none => none
  | some e => some (e.setRetryable true)

/-- Heap of metadata maps allocated by `WithMetaContext`.  Go maps are
reference values; making the allocations explicit lets "the parent's map is
never written" be a real statement about the code. -/
structure Store where
  maps : List Mp

/-- Read the map at reference `r`. -/
def Store.get (s : Store) (r : Nat) : Option Mp :=
  s.maps[r]?

/-- A `context.Context` as `errx` observes it: nil, a root, or a
`context.WithValue(parent, errxCtxKey{}, ref)` node holding a reference to
an allocated metadata map. -/
inductive GoCtx where
  | nilCtx
  | background
  | withVal (r : Nat) (parent : GoCtx)

/-- `ctx.Value(errxCtxKey{})`: the innermost stored reference, if any. -/
def ctxMetaRef : GoCtx → Option Nat
  | .nilCtx => none
  | .background => none
  | .withVal r _ => some r

/-- `getCtxMeta(ctx)`: the stored metadata map, nil context or absent key
yielding nil. -/
def getCtxMeta (s : Store) (ctx : GoCtx) : Option Mp :=
  match ctxMetaRef ctx with
  | none => none
  | some r => s.get r

/-- The pair loop of `WithMetaContext`:
`for i := 0; i < len(keyvals)-1; i += 2` — consume two arguments at a time
(a trailing unpaired key is never reached), upsert when the key is a
string, skip the pair otherwise. -/
def applyPairs (m : Mp) : List GoVal → Mp
  | .vStr k :: v :: rest => applyPairs (upsert m k v) rest
  | _ :: _ :: rest => applyPairs m rest
  | _ => m

/-- `WithMetaContext(ctx, keyvals...)`: copy the parent snapshot (empty if
none) into a freshly allocated map, apply the pairs on top, and hang the
new reference on a child context.  Returns the grown store and the child. -/
def WithMetaContext (s : Store) (ctx : GoCtx) (keyvals : List GoVal) :
    Store × GoCtx :=
  let existing := (getCtxMeta s ctx).getD []
  let merged := applyPairs existing keyvals
  (⟨s.maps ++ [merged]⟩, .withVal s.maps.length ctx)

/-- `for k, v := range src { m[k] = v }` — merge a snapshot into a map.
(Go's map iteration order is unspecified; with the snapshot's keys unique,
which a Go map guarantees, the result is order-independent.) -/
def mergeInto (m : Mp) (src : Mp) : Mp :=
  src.foldl (fun acc kv => upsert acc kv.1 kv.2) m

/-- `(*Error).WithMetaFromContext(ctx)`: nil receiver no-op; otherwise
upsert every entry of the context snapshot into the metadata map. -/
def Error.WithMetaFromContext (e : Option Error) (s : Store) (ctx : GoCtx) :
    Option Error :=
  match e with
  | none => none
  | some ex =>
    some (ex.setMetadata
      (some (mergeInto (ex.metadata.getD []) ((getCtxMeta s ctx).getD []))))

/-- All context references held by `ctx` point into the store (true of any
context actually produced by `WithMetaContext` on that store). -/
def CtxRefOK (s : Store) (ctx : GoCtx) : Prop :=
  ∀ r, ctxMetaRef ctx = some r → r < s.maps.length

/-- Option choice, first operand winning (helper for the spec-side merge
characterization). -/
def orO : Option GoVal → Option GoVal → Option GoVal
  | some a, _ => some a
  | none, b => b

/-- Spec-side description of one `attach` call's pair list: the value of the
last pair whose key is the given string — later pairs win, a pair with a
non-string key contributes nothing, a trailing unpaired key contributes
nothing. -/
def lastAssign (key : String) : List GoVal → Option GoVal
  | .vStr k :: v :: rest =>
    orO (lastAssign key rest) (if k = key then some v else none)
  | _ :: _ :: rest => lastAssign key rest
  | _ => none

/-- Spec-side description of reading the child snapshot: a supplied pair
overwrites the parent entry of the same key, and the parent entry shows
through otherwise. -/
def mergedLookupSpec (parent : Mp) (keyvals : List GoVal) (key : String) :
    Option GoVal :=
  orO (lastAssign key keyvals) (lookupMp parent key)

/-- Metadata lookup through a possibly-nil `*Error`. -/
def metaLookup (e : Option Error) (k : String) : Option GoVal :=
  match e with
  | none => none
  | some ex => lookupMp (ex.metadata.getD []) k

theorem lookup_upsert (m : Mp) (k : String) (v : GoVal) (key : String) :
    lookupMp (upsert m k v) key =
      if k = key then some v else lookupMp m key := by
  induction m with
  | nil => simp [upsert, lookupMp]
  | cons hd tl ih =>
    obtain ⟨k', v'⟩ := hd
    by_cases hk : k' = k
    · subst hk
      by_cases hkey : k' = key <;> simp [upsert, lookupMp, hkey]
    · by_cases hkey : k' = key
      · subst hkey
        have : ¬ k = k' := fun h => hk h.symm
        simp [upsert, lookupMp, hk, this]
      · simp [upsert, lookupMp, hk, hkey, ih]

/-- Two-at-a-time induction principle matching the pair loop. -/
theorem twoStepInduction {α : Type} {motive : List α → Prop}
    (h0 : motive []) (h1 : ∀ a, motive [a])
    (h2 : ∀ a b l, motive l → motive (a :: b :: l)) :
    ∀ l, motive l
  | [] => h0
  | [a] => h1 a
  | a :: b :: l => h2 a b l (twoStepInduction h0 h1 h2 l)

theorem applyPairs_lookup (keyvals : List GoVal) :
    ∀ (m : Mp) (key : String),
      lookupMp (applyPairs m keyvals) key =
        orO (lastAssign key keyvals) (lookupMp m key) := by
  induction keyvals using twoStepInduction with
  | h0 => intro m key; simp [applyPairs, lastAssign, orO]
  | h1 a => intro m key; cases a <;> simp [applyPairs, lastAssign, orO]
  | h2 a b l ih =>
    intro m key
    cases a with
    | vStr k =>
      show lookupMp (applyPairs (upsert m k b) l) key = _
      rw [ih, lookup_upsert]
      cases hl : lastAssign key l with
      | some w => simp [lastAssign, hl, orO]
      | none =>
        by_cases hk : k = key <;> simp [lastAssign, hl, orO, hk]
    | vInt n =>
      show lookupMp (applyPairs m l) key = _
      rw [ih]
      simp [lastAssign]

theorem mergeInto_lookup_notMem (src : Mp) :
    ∀ (m : Mp) (key : String), key ∉ src.map Prod.fst →
      lookupMp (mergeInto m src) key = lookupMp m key := by
  induction src with
  | nil => intro m key _; rfl
  | cons hd tl ih =>
    intro m key hmem
    obtain ⟨k', v'⟩ := hd
    simp only [List.map_cons, List.mem_cons, not_or] at hmem
    show lookupMp (mergeInto (upsert m k' v') tl) key = _
    rw [ih _ _ hmem.2, lookup_upsert, if_neg (fun h => hmem.1 h.symm)]

theorem mergeInto_lookup_mem (src : Mp) :
    ∀ (m : Mp) (key : String) (v : GoVal), nodupKeys src →
      lookupMp src key = some v →
      lookupMp (mergeInto m src) key = some v := by
  induction src with
  | nil => intro m key v _ h; simp [lookupMp] at h
  | cons hd tl ih =>
    intro m key v hnd hl
    obtain ⟨k', v'⟩ := hd
    unfold nodupKeys at hnd
    simp only [List.map_cons, List.nodup_cons] at hnd
    show lookupMp (mergeInto (upsert m k' v') tl) key = some v
    by_cases hk : k' = key
    · subst hk
      have hv : v' = v := by simpa [lookupMp] using hl
      subst hv
      rw [mergeInto_lookup_notMem tl _ _ hnd.1, lookup_upsert]
      simp
    · simp only [lookupMp, if_neg hk] at hl
      exact ih _ _ _ hnd.2 hl

theorem metadata_setMetadata (e : Error) (x : Option Mp) :
    (e.setMetadata x).metadata = x := by
  cases e; rfl

/-- C1: when the unwrap chain of a non-absent error holds an `ErrorValue`
(the first one the traversal finds being `ex`), `Ensure` returns that very
node — all of its fields as they were — and the fallback code and message
(universally quantified here, absent from the result) are discarded. -/
theorem c1_ensure_passthrough (e : GoErr) (ex : Error) (c : Code)
    (m : String) (st : List Nat) (h : findErrx e = some (some ex)) :
    Ensure (some e) c m st = some ex := by
  simp [Ensure, h]

def c1w_ex : Error := newError CodeNotFound "x" none []

def c1w_chain : GoErr := .wrapper "outer" (.ptrErr (some c1w_ex))

theorem c1_ensure_passthrough_witness :
    findErrx c1w_chain = some (some c1w_ex) ∧
    Ensure (some c1w_chain) CodeInternal "fallback" [0, 1, 2, 3, 4, 5] =
      some c1w_ex :=
  ⟨rfl, c1_ensure_passthrough c1w_chain c1w_ex CodeInternal "fallback"
    [0, 1, 2, 3, 4, 5] rfl⟩

/-- C2: when no `ErrorValue` lives anywhere in the chain, `Ensure` builds a
fresh node carrying the fallback code, the fallback message, and the
original error as its cause; and `Ensure` of an absent input is absent. -/
theorem c2_ensure_fallback (e : GoErr) (c : Code) (m : String)
    (st : List Nat) (h : findErrx e = none) :
    Ensure (some e) c m st = some (newError c m (some e) st) ∧
    (newError c m (some e) st).code = c ∧
    (newError c m (some e) st).message = m ∧
    (newError c m (some e) st).cause = some e ∧
    Ensure none c m st = none := by
  refine ⟨?_, rfl, rfl, rfl, rfl⟩
  simp [Ensure, h]

theorem c2_ensure_fallback_witness :
    findErrx (GoErr.plain "boom") = none ∧
    Ensure (some (GoErr.plain "boom")) CodeInternal "x" [] =
      some (newError CodeInternal "x" (some (GoErr.plain "boom")) []) :=
  ⟨rfl, (c2_ensure_fallback (GoErr.plain "boom") CodeInternal "x" [] rfl).1⟩

/-- C3: deriving a child context never mutates the parent's snapshot — after
`WithMetaContext` grows the store, reading the parent context yields exactly
the map it yielded before, whatever pairs the child supplied. -/
theorem c3_parent_snapshot_preserved (s : Store) (ctx : GoCtx)
    (kvs : List GoVal) (h : CtxRefOK s ctx) :
    getCtxMeta (WithMetaContext s ctx kvs).1 ctx = getCtxMeta s ctx := by
  unfold getCtxMeta WithMetaContext Store.get
  cases hr : ctxMetaRef ctx with
  | none => rfl
  | some r => exact List.getElem?_append_left (h r hr)

def c3w_parent : Store × GoCtx :=
  WithMetaContext ⟨[]⟩ .background
    [.vStr "a", .vInt 1, .vStr "b", .vInt 2]

theorem c3_parent_snapshot_preserved_witness :
    CtxRefOK c3w_parent.1 c3w_parent.2 ∧
    getCtxMeta
        (WithMetaContext c3w_parent.1 c3w_parent.2 [.vStr "b", .vInt 3]).1
        c3w_parent.2 =
      getCtxMeta c3w_parent.1 c3w_parent.2 ∧
    getCtxMeta c3w_parent.1 c3w_parent.2 =
      some [("a", .vInt 1), ("b", .vInt 2)] := by
  have hwf : CtxRefOK c3w_parent.1 c3w_parent.2 := by
    intro r hr
    have h0 : (some 0 : Option Nat) = some r := hr
    cases Option.some.inj h0
    decide
  exact ⟨hwf,
    c3_parent_snapshot_preserved c3w_parent.1 c3w_parent.2
      [.vStr "b", .vInt 3] hwf, rfl⟩

/-- C4: reading the child produced by `WithMetaContext` yields the parent's
snapshot (empty when the parent had none) with the supplied pairs applied on
top; key by key this is: the last string-keyed supplied pair for that key
wins, falling back to the parent entry — non-string-keyed pairs and a
trailing unpaired key contribute nothing (see `lastAssign`). -/
theorem c4_child_snapshot_merge (s : Store) (ctx : GoCtx)
    (kvs : List GoVal) :
    getCtxMeta (WithMetaContext s ctx kvs).1 (WithMetaContext s ctx kvs).2 =
      some (applyPairs ((getCtxMeta s ctx).getD []) kvs) ∧
    ∀ key, lookupMp (applyPairs ((getCtxMeta s ctx).getD []) kvs) key =
      mergedLookupSpec ((getCtxMeta s ctx).getD []) kvs key := by
  constructor
  · unfold WithMetaContext getCtxMeta ctxMetaRef Store.get
    simp
  · intro key
    exact applyPairs_lookup kvs _ key

/-- C5: `WithMeta` then `WithMetaFromContext` leaves the context's value for
the key (context wins); the reverse order leaves the `WithMeta` value (the
later mutator wins) — call order alone decides. -/
theorem c5_context_merge_order (e : Error) (mm : Mp)
    (hm : e.metadata = some mm) (k : String) (x y : GoVal) (s : Store)
    (ctx : GoCtx) (snap : Mp) (hc : getCtxMeta s ctx = some snap)
    (hnd : nodupKeys snap) (hk : lookupMp snap k = some y) :
    metaLookup (Error.WithMetaFromContext (Error.WithMeta (some e) k x) s ctx)
        k = some y ∧
    metaLookup (Error.WithMeta (Error.WithMetaFromContext (some e) s ctx) k x)
        k = some x := by
  constructor
  · simp only [Error.WithMeta, Error.WithMetaFromContext, metaLookup, hm, hc,
      metadata_setMetadata, Option.getD_some]
    exact mergeInto_lookup_mem snap _ k y hnd hk
  · simp only [Error.WithMeta, Error.WithMetaFromContext, metaLookup, hm, hc,
      metadata_setMetadata, Option.getD_some]
    rw [lookup_upsert]
    simp

def c5w_err : Option Error := New CodeInternal "m" []

def c5w_ctx : Store × GoCtx :=
  WithMetaContext ⟨[]⟩ .background [.vStr "k", .vStr "Y"]

theorem c5_context_merge_order_witness :
    metaLookup
        (Error.WithMetaFromContext
          (Error.WithMeta c5w_err "k" (.vStr "X")) c5w_ctx.1 c5w_ctx.2) "k" =
      some (.vStr "Y") ∧
    metaLookup
        (Error.WithMeta
          (Error.WithMetaFromContext c5w_err c5w_ctx.1 c5w_ctx.2) "k"
          (.vStr "X")) "k" =
      some (.vStr "X") :=
  c5_context_merge_order (newError CodeInternal "m" none []) [] rfl "k"
    (.vStr "X") (.vStr "Y") c5w_ctx.1 c5w_ctx.2 [("k", .vStr "Y")] rfl
    (by decide) rfl

/-- C6: the `Is` equivalence between two constructed `ErrorValue`s holds
exactly when their codes are equal — no other field enters — and an absent
receiver is equivalent to an absent target only, never to a constructed
node. -/
theorem c6_is_code_equivalence (a b : Error) (t : Option GoErr) :
    (Error.Is (some a) (some (.ptrErr (some b))) = some true ↔
      a.code = b.code) ∧
    (Error.Is none t = some true ↔ t = none) ∧
    Error.Is none (some (.ptrErr (some b))) = some false := by
  refine ⟨?_, ?_, rfl⟩
  · simp [Error.Is]
  · cases t <;> simp [Error.Is]

/-- C7: on the two-level chain `Wrap (Wrap base c2 m2) c1 m1`, `CodeOf`
reads `c1`, and the chain walk hands back the outer node itself (the fresh
node carrying `c1`/`m1` whose cause holds the inner wrap) — never the inner
node or `base`; an absent input is not-found. -/
theorem c7_two_level_wrap (base : GoErr) (c1 c2 : Code) (m1 m2 : String)
    (s1 s2 : List Nat) :
    CodeOf (some (.ptrErr
        (Wrap (some (.ptrErr (Wrap (some base) c2 m2 s2))) c1 m1 s1))) =
      some c1 ∧
    As (some (.ptrErr
        (Wrap (some (.ptrErr (Wrap (some base) c2 m2 s2))) c1 m1 s1))) =
      (Wrap (some (.ptrErr (Wrap (some base) c2 m2 s2))) c1 m1 s1, true) ∧
    Wrap (some (.ptrErr (Wrap (some base) c2 m2 s2))) c1 m1 s1 =
      some (newError c1 m1
        (some (.ptrErr (some (newError c2 m2 (some base) s2)))) s1) ∧
    As none = (none, false) :=
  ⟨rfl, rfl, rfl, rfl⟩

/-- C8: the claim says every operation is total, naming the typed-nil
comparison target; but `(*Error).Is` on a non-nil receiver type-asserts the
target and then reads `t.code` through the nil pointer — a nil dereference
panic, modelled as `none`. -/
theorem c8_is_typed_nil_target_panics :
    Error.Is (some (newError CodeInternal "x" none []))
      (some (.ptrErr none)) = none := rfl

/-- C9: each constructor (`New`, `Newf`, `Wrap` on a non-nil cause, and the
fallback branch of `Ensure`) yields exactly one fresh `newError` node, and
every `newError` node has non-nil empty detail and metadata maps and the
single stack capture of its construction, at most `maxDepth = 32` frames
long. -/
theorem c9_constructor_invariants (c cf : Code) (msg mf fmtStr : String)
    (args : List GoVal) (cause e2 : GoErr) (st : List Nat)
    (h : findErrx e2 = none) :
    New c msg st = some (newError c msg none st) ∧
    Newf c fmtStr args st = some (newError c (sprintf fmtStr args) none st) ∧
    Wrap (some cause) c msg st = some (newError c msg (some cause) st) ∧
    Ensure (some e2) cf mf st = some (newError cf mf (some e2) st) ∧
    ∀ (cd : Code) (ms : String) (ca : Option GoErr),
      (newError cd ms ca st).details = some [] ∧
      (newError cd ms ca st).metadata = some [] ∧
      (newError cd ms ca st).stackTrace =
        captureStackTrace stackSkipDepth st ∧
      (newError cd ms ca st).stackTrace.length ≤ maxDepth := by
  have hlen : (captureStackTrace stackSkipDepth st).length ≤ maxDepth := by
    unfold captureStackTrace
    simp [List.length_take]
  exact ⟨rfl, rfl, rfl, by simp [Ensure, h],
    fun cd ms ca => ⟨rfl, rfl, rfl, hlen⟩⟩

theorem c9_constructor_invariants_witness :
    findErrx (GoErr.plain "boom") = none ∧
    Ensure (some (GoErr.plain "boom")) CodeInternal "fb" (List.range 40) =
      some (newError CodeInternal "fb" (some (GoErr.plain "boom"))
        (List.range 40)) ∧
    (newError CodeInternal "fb" (some (GoErr.plain "boom"))
        (List.range 40)).stackTrace.length ≤ maxDepth :=
  ⟨rfl,
    (c9_constructor_invariants CodeInternal CodeInternal "fb" "fb" "f" []
      (GoErr.plain "boom") (GoErr.plain "boom") (List.range 40)
      rfl).2.2.2.1,
    ((c9_constructor_invariants CodeInternal CodeInternal "fb" "fb" "f" []
      (GoErr.plain "boom") (GoErr.plain "boom") (List.range 40)
      rfl).2.2.2.2 CodeInternal "fb" (some (GoErr.plain "boom"))).2.2.2⟩

/-- C10: the chain-wide retryability check consults only the first
`ErrorValue` the traversal finds: when that node is not retryable the whole
chain reads as not retryable, whatever deeper nodes say. -/
theorem c10_retryable_first_node_only (e : GoErr) (ex : Error)
    (h1 : findErrx e = some (some ex)) (h2 : ex.retryable = false) :
    IsRetryable (some e) = false := by
  simp [IsRetryable, As, h1, Error.IsRetryable, h2]

def c10w_inner : Error := (newError CodeUnavailable "svc" none []).setRetryable true

def c10w_outer : Error :=
  newError CodeNotFound "nf" (some (.ptrErr (some c10w_inner))) []

def c10w_chain : GoErr := .wrapper "w" (.ptrErr (some c10w_outer))

theorem c10_retryable_first_node_only_witness :
    findErrx c10w_chain = some (some c10w_outer) ∧
    c10w_outer.retryable = false ∧
    Error.IsRetryable (some c10w_inner) = true ∧
    IsRetryable (some c10w_chain) = false :=
  ⟨rfl, rfl, rfl,
    c10_retryable_first_node_only c10w_chain c10w_outer rfl rfl⟩

end Errx
